import Mathlib

/-!
Verification development for the NCAA football predictions dashboard.

The repository's core logic lives in:
  * src/web-dashboard/src/app/page.tsx — processPredictions, calculatePerformance
  * src/web-dashboard/src/app/api/predictions/route.ts — row normalization (GET)
  * src/unnamed/part_000 — themed dashboard variants (bettingOpps pipeline with a
    minimum-edge slider and a final minimum-edge filter)

JavaScript numbers are modelled as rationals (ℚ); NaN is modelled as the
Option value none at the parsing boundary.  JavaScript string truthiness is
modelled as "not the empty string".  Array.prototype.sort with the comparator
(a, b) => b.edge - a.edge is, per the ECMAScript specification, a stable sort
consistent with that comparator, hence modelled by the stable insertion sort
by the edge key descending.
-/

/-- Value of a list of decimal digit characters, most significant first. -/
def digitsToNat (ds : List Char) : Nat :=
  ds.foldl (fun acc c => 10 * acc + (c.toNat - 48)) 0

/-- The components of a parsed decimal literal: sign, integer digits,
fraction digits with their count, and the exponent. -/
structure FloatLit where
  neg : Bool
  intPart : Nat
  fracPart : Nat
  fracLen : Nat
  expPart : Int
deriving DecidableEq, Repr

/-- Lexical phase of the JavaScript builtin parseFloat: skip leading
whitespace, read an optional sign, decimal digits with an optional fractional
part and an optional exponent part, and ignore any trailing characters;
none (modelling NaN) when no digit is found. -/
def floatLex (s : String) : Option FloatLit :=
  let cs := s.toList.dropWhile (fun c => c = ' ' || c = '\t' || c = '\n' || c = '\r')
  let neg : Bool := match cs with
    | '-' :: _ => true
    | _ => false
  let cs := match cs with
    | '-' :: rest => rest
    | '+' :: rest => rest
    | _ => cs
  let intDs := cs.takeWhile Char.isDigit
  let cs := cs.dropWhile Char.isDigit
  let fracDs := match cs with
    | '.' :: rest => rest.takeWhile Char.isDigit
    | _ => []
  let cs := match cs with
    | '.' :: rest => rest.dropWhile Char.isDigit
    | _ => cs
  if intDs.isEmpty && fracDs.isEmpty then none
  else
    let expPart : Int := match cs with
      | 'e' :: rest | 'E' :: rest =>
        let esign : Int := match rest with
          | '-' :: _ => -1
          | _ => 1
        let rest := match rest with
          | '-' :: r => r
          | '+' :: r => r
          | _ => rest
        let eDs := rest.takeWhile Char.isDigit
        if eDs.isEmpty then 0 else esign * (digitsToNat eDs : Int)
      | _ => 0
    some ⟨neg, digitsToNat intDs, digitsToNat fracDs, fracDs.length, expPart⟩

/-- Numeric value of a parsed decimal literal. -/
def FloatLit.val (t : FloatLit) : ℚ :=
  (if t.neg then -1 else 1) * ((t.intPart : ℚ) + (t.fracPart : ℚ) / 10 ^ t.fracLen)
    * (10 : ℚ) ^ t.expPart

/-- Model of the JavaScript builtin parseFloat, restricted to finite results;
the Infinity literal, which no cell of this data feed produces, is not
modelled. -/
def jsParseFloat (s : String) : Option ℚ :=
  (floatLex s).map FloatLit.val

/-- Model of the idiom parseFloat(s) || 0: a NaN result (and a 0 result,
which the disjunction also maps to 0) becomes 0. -/
def parseOr0 (s : String) : ℚ :=
  (jsParseFloat s).getD 0

/-- Fractional decimal digits of r / d, at most fuel many, stopping at an
exact expansion. -/
def fracDigitsAux : Nat → Nat → Nat → List Char
  | 0, _, _ => []
  | _ + 1, 0, _ => []
  | fuel + 1, r, d => Char.ofNat (48 + (r * 10) / d) :: fracDigitsAux fuel ((r * 10) % d) d

/-- Digit-level phase of JavaScript number-to-string conversion: render
sign, integer part n / d, and the fractional expansion of n % d over d. -/
def numToStrCore (sgn : Bool) (n d : Nat) : String :=
  let s := if sgn then "-" else ""
  let frac := fracDigitsAux 20 (n % d) d
  if frac.isEmpty then s ++ toString (n / d)
  else s ++ toString (n / d) ++ "." ++ String.mk frac

/-- Model of JavaScript number-to-string conversion as used in template
literals, exact on integers and terminating decimal expansions (the only
values this data feed renders). -/
def jsNumToString (q : ℚ) : String :=
  numToStrCore (decide (q < 0)) q.num.natAbs q.den

/-- A normalized prediction row: the six string-valued cells the dashboard
reads (interface Prediction in src/unnamed/part_000; duck-typed in page.tsx). -/
structure Prediction where
  Matchup : String
  Favorite : String
  Underdog : String
  PredictedDifference : String
  Line : String
  Edge : String
deriving DecidableEq, Repr

/-- interface BettingOpportunity from page.tsx. -/
structure BettingOpportunity where
  matchup : String
  favorite : String
  underdog : String
  ourLine : ℚ
  vegasLine : ℚ
  edge : ℚ
  betRecommendation : String
  confidence : String
  edgeBand : String
deriving DecidableEq, Repr

/-- interface CoverAnalysis: a normalized outcome row. -/
structure CoverGame where
  Game : String
  OurBet : String
  Result : String
deriving DecidableEq, Repr

/-- interface PerformanceMetrics from page.tsx. -/
structure PerformanceMetrics where
  totalBets : Nat
  wins : Nat
  losses : Nat
  winRate : ℚ
  currentWeekOpportunities : Nat
deriving DecidableEq, Repr

/-- The filter of processPredictions (page.tsx lines 73-80): keep a record
only when Line is truthy, is neither sentinel, Edge is truthy, and Edge
parses to a number. -/
def predFilter (pred : Prediction) : Bool :=
  pred.Line ≠ "" && pred.Line ≠ "N/A" && pred.Line ≠ "No Line Available" &&
    pred.Edge ≠ "" && (jsParseFloat pred.Edge).isSome

/-- The edge band classification of page.tsx lines 101-119, evaluated from
the top band down; returns (confidence, edgeBand). -/
def classifyEdge (edge : ℚ) : String × String :=
  if edge ≥ 12 then ("Elite (58.5%)", "12+")
  else if edge ≥ 9 then ("Strong (70.6%)", "9-12")
  else if edge ≥ 7 then ("Good (66.7%)", "7-9")
  else if edge ≥ 5 then ("Weak (46.2%)", "5-7")
  else if edge ≥ 2 then ("Fade (35.7%)", "2-5")
  else ("Fade (46.7%)", "0-2")

/-- The map of processPredictions (page.tsx lines 81-132): parse the three
numeric fields with 0 defaulting, derive the recommendation against the
fixed threshold 2.0, classify the edge, and build the opportunity record. -/
def mapPred (pred : Prediction) : BettingOpportunity :=
  let edge := parseOr0 pred.Edge
  let ourLine := parseOr0 pred.PredictedDifference
  let vegasLine := parseOr0 pred.Line
  let betRec :=
    if edge ≥ 2 then
      if ourLine > vegasLine then
        "Take " ++ pred.Favorite ++ " -" ++ jsNumToString vegasLine
      else
        "Take " ++ pred.Underdog ++ " +" ++ jsNumToString vegasLine
    else "Below threshold"
  let c := classifyEdge edge
  { matchup := pred.Matchup
    favorite := pred.Favorite
    underdog := pred.Underdog
    ourLine := ourLine
    vegasLine := vegasLine
    edge := edge
    betRecommendation := betRec
    confidence := c.1
    edgeBand := c.2 }

/-- Descending order on opportunities by edge, the total preorder induced by
the comparator (a, b) => b.edge - a.edge. -/
def edgeGE (a b : BettingOpportunity) : Prop :=
  b.edge ≤ a.edge

instance : DecidableRel edgeGE := fun a b => inferInstanceAs (Decidable (b.edge ≤ a.edge))

instance : IsTotal BettingOpportunity edgeGE :=
  ⟨fun a b => le_total b.edge a.edge⟩

instance : IsTrans BettingOpportunity edgeGE :=
  ⟨fun _ _ _ hab hbc => le_trans hbc hab⟩

/-- processPredictions from page.tsx lines 69-134: guard on empty input,
filter, map, and stable sort by edge descending. -/
def processPredictions (predictions : List Prediction) : List BettingOpportunity :=
  if predictions.isEmpty then []
  else ((predictions.filter predFilter).map mapPred).insertionSort edgeGE

/-- calculatePerformance from page.tsx lines 136-162. -/
def calculatePerformance (coverAnalysis : List CoverGame) (currentOpps : Nat) :
    PerformanceMetrics :=
  if coverAnalysis.isEmpty then
    { totalBets := 0, wins := 0, losses := 0, winRate := 0,
      currentWeekOpportunities := currentOpps }
  else
    let validBets := coverAnalysis.filter fun bet =>
      bet.Result == "WIN" || bet.Result == "LOSS"
    let wins := (validBets.filter fun bet => bet.Result == "WIN").length
    let losses := (validBets.filter fun bet => bet.Result == "LOSS").length
    let winRate : ℚ := if validBets.length > 0 then ((wins : ℚ) / validBets.length) * 100 else 0
    { totalBets := validBets.length, wins := wins, losses := losses,
      winRate := winRate, currentWeekOpportunities := currentOpps }

/-- An opportunity record of the src/unnamed/part_000 variants: the spread of
the prediction row plus the derived keys (betRec, betType, edge, confidence,
vegasLine, edgeBand, bandEmoji). -/
structure VariantOpp where
  Matchup : String
  Favorite : String
  Underdog : String
  PredictedDifference : String
  Line : String
  Edge : String
  betRec : String
  betType : String
  edge : ℚ
  confidence : String
  vegasLine : ℚ
  edgeBand : String
  bandEmoji : String
deriving DecidableEq, Repr

/-- The map of the bettingOpps pipeline (src/unnamed/part_000 lines 70-114):
the recommendation defaults to the empty string and is only filled in when
the parsed edge reaches the minimum-edge threshold; the edge band is
classified from the bottom band up. -/
def variantMap (minEdge : ℚ) (pred : Prediction) : VariantOpp :=
  let edge := parseOr0 pred.Edge
  let predDiff := parseOr0 pred.PredictedDifference
  let vegasLine := parseOr0 pred.Line
  let betRec :=
    if edge ≥ minEdge then
      if predDiff > vegasLine then
        "Take " ++ pred.Favorite ++ " -" ++ jsNumToString vegasLine
      else
        "Take " ++ pred.Underdog ++ " +" ++ jsNumToString vegasLine
    else ""
  let betType :=
    if edge ≥ minEdge then (if predDiff > vegasLine then "Favorite" else "Underdog") else ""
  let c :=
    if edge < 2 then ("0-2", "🔴", "Avoid (40%)")
    else if edge < 5 then ("2-5", "🟡", "Weak (37%)")
    else if edge < 7 then ("5-7", "🟢", "Good (75%)")
    else if edge < 9 then ("7-9", "🔥", "Excellent (100%)")
    else if edge < 12 then ("9-12", "💎", "Strong (60%)")
    else ("12+", "👑", "Elite (64%)")
  { Matchup := pred.Matchup
    Favorite := pred.Favorite
    Underdog := pred.Underdog
    PredictedDifference := pred.PredictedDifference
    Line := pred.Line
    Edge := pred.Edge
    betRec := betRec
    betType := betType
    edge := edge
    confidence := c.2.2
    vegasLine := vegasLine
    edgeBand := c.1
    bandEmoji := c.2.1 }

/-- Descending order on variant opportunities by edge. -/
def vEdgeGE (a b : VariantOpp) : Prop :=
  b.edge ≤ a.edge

instance : DecidableRel vEdgeGE := fun a b => inferInstanceAs (Decidable (b.edge ≤ a.edge))

instance : IsTotal VariantOpp vEdgeGE :=
  ⟨fun a b => le_total b.edge a.edge⟩

instance : IsTrans VariantOpp vEdgeGE :=
  ⟨fun _ _ _ hab hbc => le_trans hbc hab⟩

/-- The bettingOpps pipeline of src/unnamed/part_000 lines 68-116 (the tabbed
variant at lines 450-498 applies the same filter, map shape, final
minimum-edge filter, and sort): sentinel-line filter, map, a final filter
keeping only records with edge at least the minimum-edge threshold, and a
stable sort by edge descending. -/
def bettingOpps (minEdge : ℚ) (predictions : List Prediction) : List VariantOpp :=
  (((predictions.filter fun pred =>
        pred.Line ≠ "" && pred.Line ≠ "N/A" && pred.Line ≠ "No Line Available").map
      (variantMap minEdge)).filter fun bet => bet.edge ≥ minEdge).insertionSort vEdgeGE

/-- Assignment obj[k] = v on a JavaScript object modelled as an insertion
ordered association list: overwrite in place, or append a new key. -/
def setKey : List (String × String) → String → String → List (String × String)
  | [], k, v => [(k, v)]
  | (k', v') :: rest, k, v =>
    if k' = k then (k, v) :: rest else (k', v') :: setKey rest k v

/-- One row of the GET handler's normalization (route.ts lines 68-74):
headers.forEach((header, index) => obj[header] = row[index] || ''). -/
def buildObj (headers row : List String) : List (String × String) :=
  headers.enum.foldl (fun obj p => setKey obj p.2 (row.getD p.1 "")) []

/-- The Row Normalizer of the GET handler (route.ts lines 67-75): with more
than one row, each data row after the header row becomes one record; with
zero or one row the output is empty. -/
def normalizeTable (tbl : List (List String)) : List (List (String × String)) :=
  if tbl.length > 1 then (tbl.drop 1).map (buildObj (tbl.headD [])) else []

example : floatLex "3" = some ⟨false, 3, 0, 0, 0⟩ := by decide
example : floatLex "7.5" = some ⟨false, 7, 5, 1, 0⟩ := by decide
example : floatLex "N/A" = none := by decide
example : floatLex "" = none := by decide
example : floatLex "No Line Available" = none := by decide
example : floatLex "-2.5e1" = some ⟨true, 2, 5, 1, 1⟩ := by decide
example : jsParseFloat "3" = some 3 := by
  rw [jsParseFloat, show floatLex "3" = some ⟨false, 3, 0, 0, 0⟩ from by decide]
  norm_num [FloatLit.val]
example : jsParseFloat "7.5" = some (15 / 2) := by
  rw [jsParseFloat, show floatLex "7.5" = some ⟨false, 7, 5, 1, 0⟩ from by decide]
  norm_num [FloatLit.val]

section ClassifierClaims

/-- Boundary example: an edge just below 2 lands in the bottom band. -/
lemma classify_boundary_low : (classifyEdge (1999 / 1000)).2 = "0-2" := by
  norm_num [classifyEdge]

/-- Boundary example: an edge of exactly 2 lands in the 2-5 band. -/
lemma classify_boundary_two : (classifyEdge 2).2 = "2-5" := by
  norm_num [classifyEdge]

/-- Boundary example: an edge just below 12 lands in the 9-12 band. -/
lemma classify_boundary_high : (classifyEdge (11999 / 1000)).2 = "9-12" := by
  norm_num [classifyEdge]

/-- Boundary example: an edge of exactly 12 lands in the top band. -/
lemma classify_boundary_twelve : (classifyEdge 12).2 = "12+" := by
  norm_num [classifyEdge]

/-- C1: for every finite non-negative edge value, the classifier assigns one
of the six bands; each band holds exactly on its half-open interval, so the
bands partition the non-negative ray without gaps or overlaps; and the four
boundary examples evaluate as the spec states. -/
theorem classifyEdge_partitions (e : ℚ) (he : 0 ≤ e) :
    (classifyEdge e).2 ∈ (["12+", "9-12", "7-9", "5-7", "2-5", "0-2"] : List String) ∧
    ((classifyEdge e).2 = "12+" ↔ 12 ≤ e) ∧
    ((classifyEdge e).2 = "9-12" ↔ 9 ≤ e ∧ e < 12) ∧
    ((classifyEdge e).2 = "7-9" ↔ 7 ≤ e ∧ e < 9) ∧
    ((classifyEdge e).2 = "5-7" ↔ 5 ≤ e ∧ e < 7) ∧
    ((classifyEdge e).2 = "2-5" ↔ 2 ≤ e ∧ e < 5) ∧
    ((classifyEdge e).2 = "0-2" ↔ 0 ≤ e ∧ e < 2) ∧
    (classifyEdge (1999 / 1000)).2 = "0-2" ∧
    (classifyEdge 2).2 = "2-5" ∧
    (classifyEdge (11999 / 1000)).2 = "9-12" ∧
    (classifyEdge 12).2 = "12+" := by
  refine ⟨?_, ?_, ?_, ?_, ?_, ?_, ?_, classify_boundary_low, classify_boundary_two,
    classify_boundary_high, classify_boundary_twelve⟩ <;>
  · unfold classifyEdge
    split_ifs with h1 h2 h3 h4 h5 <;>
      simp <;>
      first
        | linarith
        | (intro h; linarith)
        | (exact ⟨by linarith, by linarith⟩)

/-- Witness for the classifier theorem at the concrete edge value 3. -/
theorem classifyEdge_partitions_witness :
    (0 : ℚ) ≤ 3 ∧ ((classifyEdge 3).2 = "2-5" ↔ 2 ≤ (3 : ℚ) ∧ (3 : ℚ) < 5) :=
  ⟨by norm_num, (classifyEdge_partitions 3 (by norm_num)).2.2.2.2.2.1⟩

end ClassifierClaims

section PerformanceClaims

/-- Keeping the win rows of the qualifying rows is the same as keeping the
win rows of the whole outcome list. -/
lemma filter_win_valid (cover : List CoverGame) :
    ((cover.filter fun bet => bet.Result == "WIN" || bet.Result == "LOSS").filter
        fun bet => bet.Result == "WIN") =
      cover.filter fun bet => bet.Result == "WIN" := by
  rw [List.filter_filter]
  refine List.filter_congr fun b _ => ?_
  cases h : (b.Result == "WIN") <;> simp [h]

/-- Keeping the loss rows of the qualifying rows is the same as keeping the
loss rows of the whole outcome list. -/
lemma filter_loss_valid (cover : List CoverGame) :
    ((cover.filter fun bet => bet.Result == "WIN" || bet.Result == "LOSS").filter
        fun bet => bet.Result == "LOSS") =
      cover.filter fun bet => bet.Result == "LOSS" := by
  rw [List.filter_filter]
  refine List.filter_congr fun b _ => ?_
  cases h : (b.Result == "LOSS") <;> simp [h]

/-- The win rows and the loss rows together are exactly the qualifying rows. -/
lemma win_add_loss (cover : List CoverGame) :
    (cover.filter fun b => b.Result == "WIN").length +
      (cover.filter fun b => b.Result == "LOSS").length =
      (cover.filter fun b => b.Result == "WIN" || b.Result == "LOSS").length := by
  induction cover with
  | nil => rfl
  | cons c t ih =>
    by_cases hw : c.Result = "WIN" <;> by_cases hl : c.Result = "LOSS" <;>
      simp [List.filter_cons, hw, hl] <;> omega

/-- C5: the Performance Aggregator counts exactly the rows whose Result is
the literal WIN or the literal LOSS, the win rate is 0 on an empty
qualifying total and 100 times wins over total otherwise, and the two
concrete scenarios (no qualifying rows; three wins, one loss and one
pending) evaluate as the spec states. -/
theorem calculatePerformance_counts (cover : List CoverGame) (n : Nat) :
    (calculatePerformance cover n).wins = (cover.filter fun b => b.Result == "WIN").length ∧
    (calculatePerformance cover n).losses =
      (cover.filter fun b => b.Result == "LOSS").length ∧
    (calculatePerformance cover n).totalBets =
      (cover.filter fun b => b.Result == "WIN" || b.Result == "LOSS").length ∧
    (calculatePerformance cover n).winRate =
      (if (cover.filter fun b => b.Result == "WIN" || b.Result == "LOSS").length = 0 then 0
       else 100 * ((cover.filter fun b => b.Result == "WIN").length : ℚ) /
         ((cover.filter fun b => b.Result == "WIN" || b.Result == "LOSS").length : ℚ)) ∧
    (calculatePerformance [] 0).winRate = 0 ∧
    (calculatePerformance [⟨"g1", "b1", "WIN"⟩, ⟨"g2", "b2", "WIN"⟩, ⟨"g3", "b3", "WIN"⟩,
        ⟨"g4", "b4", "LOSS"⟩, ⟨"g5", "b5", "PENDING"⟩] 0).winRate = 75 := by
  have hconc1 : (calculatePerformance [] 0).winRate = 0 := by
    simp [calculatePerformance]
  have hconc2 : (calculatePerformance [⟨"g1", "b1", "WIN"⟩, ⟨"g2", "b2", "WIN"⟩,
      ⟨"g3", "b3", "WIN"⟩, ⟨"g4", "b4", "LOSS"⟩, ⟨"g5", "b5", "PENDING"⟩] 0).winRate = 75 := by
    have h : (calculatePerformance [⟨"g1", "b1", "WIN"⟩, ⟨"g2", "b2", "WIN"⟩,
        ⟨"g3", "b3", "WIN"⟩, ⟨"g4", "b4", "LOSS"⟩, ⟨"g5", "b5", "PENDING"⟩] 0).winRate =
        ((3 : ℕ) : ℚ) / ((4 : ℕ) : ℚ) * 100 := rfl
    rw [h]
    norm_num
  by_cases hc : cover = []
  · subst hc
    refine ⟨rfl, rfl, rfl, ?_, hconc1, hconc2⟩
    simp [calculatePerformance]
  · have hne : cover.isEmpty = false := by simpa [List.isEmpty_iff] using hc
    refine ⟨?_, ?_, ?_, ?_, hconc1, hconc2⟩
    · simp only [calculatePerformance, hne, Bool.false_eq_true, if_false]
      exact congrArg List.length (filter_win_valid cover)
    · simp only [calculatePerformance, hne, Bool.false_eq_true, if_false]
      exact congrArg List.length (filter_loss_valid cover)
    · simp only [calculatePerformance, hne, Bool.false_eq_true, if_false]
    · simp only [calculatePerformance, hne, Bool.false_eq_true, if_false]
      rw [filter_win_valid]
      rcases Nat.eq_zero_or_pos
          (cover.filter fun b => b.Result == "WIN" || b.Result == "LOSS").length with h0 | h0
      · simp [h0]
      · rw [if_pos h0, if_neg (by omega)]
        ring

end PerformanceClaims

/-- C9: for every outcome list and passed-through opportunity count, the
returned metrics satisfy wins + losses = totalBets, the win rate lies
between 0 and 100, and the current-week opportunity count is returned
unchanged. -/
theorem calculatePerformance_invariants (cover : List CoverGame) (n : Nat) :
    (calculatePerformance cover n).wins + (calculatePerformance cover n).losses =
      (calculatePerformance cover n).totalBets ∧
    0 ≤ (calculatePerformance cover n).winRate ∧
    (calculatePerformance cover n).winRate ≤ 100 ∧
    (calculatePerformance cover n).currentWeekOpportunities = n := by
  by_cases hc : cover = []
  · subst hc
    refine ⟨rfl, ?_, ?_, rfl⟩ <;> norm_num [calculatePerformance]
  · have hne : cover.isEmpty = false := by simpa [List.isEmpty_iff] using hc
    simp only [calculatePerformance, hne, Bool.false_eq_true, if_false]
    refine ⟨?_, ?_, ?_, trivial⟩
    · rw [congrArg List.length (filter_win_valid cover),
        congrArg List.length (filter_loss_valid cover)]
      exact win_add_loss cover
    · split_ifs with h
      · positivity
      · exact le_refl 0
    · split_ifs with h
      · have hw : ((cover.filter fun bet => bet.Result == "WIN" || bet.Result == "LOSS").filter
            fun bet => bet.Result == "WIN").length ≤
            (cover.filter fun bet => bet.Result == "WIN" || bet.Result == "LOSS").length :=
          List.length_filter_le _ _
        have ht : (0 : ℚ) <
            ((cover.filter fun bet => bet.Result == "WIN" || bet.Result == "LOSS").length : ℚ) := by
          exact_mod_cast h
        have h1 : (((cover.filter fun bet => bet.Result == "WIN" || bet.Result == "LOSS").filter
            fun bet => bet.Result == "WIN").length : ℚ) /
            ((cover.filter fun bet => bet.Result == "WIN" || bet.Result == "LOSS").length : ℚ)
            ≤ 1 := by
          rw [div_le_one ht]
          exact_mod_cast hw
        nlinarith
      · norm_num

section SortClaims

/-- Inserting into a sorted-by-key list does not disturb, for any key value,
the sublist of elements carrying that key: the new element lands before
exactly the strictly smaller keys. -/
lemma orderedInsert_filter_key {α : Type} (key : α → ℚ) (r : α → α → Prop) [DecidableRel r]
    (hr : ∀ a b, r a b ↔ key b ≤ key a) (e : ℚ) (x : α) (l : List α) :
    (l.orderedInsert r x).filter (fun a => decide (key a = e)) =
      (x :: l).filter (fun a => decide (key a = e)) := by
  induction l with
  | nil => rfl
  | cons b t ih =>
    rw [List.orderedInsert]
    by_cases hxb : r x b
    · rw [if_pos hxb]
    · rw [if_neg hxb]
      have hlt : key x < key b := lt_of_not_le fun hba => hxb ((hr x b).2 hba)
      have hne : key x ≠ key b := ne_of_lt hlt
      by_cases hpx : key x = e
      · have hpb : key b ≠ e := fun hb => hne (hpx.trans hb.symm)
        simp [List.filter_cons, hpx, hpb, ih]
      · simp [List.filter_cons, hpx, ih]

/-- The stable insertion sort preserves, for any key value, the sublist of
elements carrying that key. -/
lemma insertionSort_filter_key {α : Type} (key : α → ℚ) (r : α → α → Prop) [DecidableRel r]
    (hr : ∀ a b, r a b ↔ key b ≤ key a) (e : ℚ) (l : List α) :
    (l.insertionSort r).filter (fun a => decide (key a = e)) =
      l.filter (fun a => decide (key a = e)) := by
  induction l with
  | nil => rfl
  | cons b t ih =>
    rw [List.insertionSort, orderedInsert_filter_key key r hr e b (t.insertionSort r),
      List.filter_cons, List.filter_cons, ih]

/-- C3: the Opportunity Builder's output is never longer than its input, is
sorted by edge descending, and the sort is stable: for every edge value, the
output records carrying that edge are exactly the mapped input records
carrying that edge, in input order. -/
theorem processPredictions_sorted_stable (preds : List Prediction) :
    (processPredictions preds).length ≤ preds.length ∧
    List.Sorted edgeGE (processPredictions preds) ∧
    ∀ e : ℚ, (processPredictions preds).filter (fun o => decide (o.edge = e)) =
      ((preds.filter predFilter).map mapPred).filter (fun o => decide (o.edge = e)) := by
  unfold processPredictions
  by_cases hp : preds.isEmpty = true
  · have hnil : preds = [] := by simpa [List.isEmpty_iff] using hp
    subst hnil
    simp
  · rw [if_neg hp]
    refine ⟨?_, List.sorted_insertionSort edgeGE _, fun e => ?_⟩
    · rw [(List.perm_insertionSort edgeGE _).length_eq, List.length_map]
      exact le_trans (List.length_filter_le _ _) (le_refl _)
    · exact insertionSort_filter_key BettingOpportunity.edge edgeGE (fun _ _ => Iff.rfl) e _

end SortClaims

section RecommendationClaims

/-- A string starting with Take is never the Below threshold marker. -/
lemma take_ne_below (s : String) : "Take " ++ s ≠ "Below threshold" := by
  intro h
  have h2 : ("Take " ++ s).data = ("Below threshold").data := congrArg String.data h
  simp [String.data_append] at h2

/-- A string starting with Take is never empty. -/
lemma take_ne_empty (s : String) : "Take " ++ s ≠ "" := by
  intro h
  have h2 : ("Take " ++ s).data = ("" : String).data := congrArg String.data h
  simp [String.data_append] at h2

/-- A built recommendation (team and line glued after Take) is never the
Below threshold marker. -/
lemma rec_ne_below (f m n : String) : "Take " ++ f ++ m ++ n ≠ "Below threshold" := by
  rw [String.append_assoc, String.append_assoc]
  exact take_ne_below _

/-- A built recommendation is never the empty string. -/
lemma rec_ne_empty (f m n : String) : "Take " ++ f ++ m ++ n ≠ "" := by
  rw [String.append_assoc, String.append_assoc]
  exact take_ne_empty _

/-- The recommendation field of a mapped record, written out. -/
lemma mapPred_betRec (pred : Prediction) :
    (mapPred pred).betRecommendation =
      if 2 ≤ parseOr0 pred.Edge then
        if parseOr0 pred.Line < parseOr0 pred.PredictedDifference then
          "Take " ++ pred.Favorite ++ " -" ++ jsNumToString (parseOr0 pred.Line)
        else "Take " ++ pred.Underdog ++ " +" ++ jsNumToString (parseOr0 pred.Line)
      else "Below threshold" := rfl

/-- C2: every opportunity the builder emits comes from an input record; its
recommendation reads Below threshold exactly when that record's parsed edge
is under the default threshold 2.0, and otherwise names the favorite at
minus the Vegas line when the parsed differential beats that line, else the
underdog at plus the Vegas line. -/
theorem processPredictions_recommendation (preds : List Prediction)
    (opp : BettingOpportunity) (h : opp ∈ processPredictions preds) :
    ∃ pred ∈ preds,
      opp = mapPred pred ∧
      (opp.betRecommendation = "Below threshold" ↔ parseOr0 pred.Edge < 2) ∧
      (2 ≤ parseOr0 pred.Edge →
        opp.betRecommendation =
          if parseOr0 pred.Line < parseOr0 pred.PredictedDifference then
            "Take " ++ pred.Favorite ++ " -" ++ jsNumToString (parseOr0 pred.Line)
          else
            "Take " ++ pred.Underdog ++ " +" ++ jsNumToString (parseOr0 pred.Line)) := by
  have hne : ¬preds.isEmpty = true := by
    intro he
    rw [processPredictions, if_pos he] at h
    exact absurd h (List.not_mem_nil _)
  rw [processPredictions, if_neg hne, List.mem_insertionSort] at h
  obtain ⟨pred, hpredmem, hmap⟩ := List.mem_map.1 h
  refine ⟨pred, List.mem_of_mem_filter hpredmem, hmap.symm, ?_, ?_⟩
  · rw [← hmap, mapPred_betRec]
    by_cases he : 2 ≤ parseOr0 pred.Edge
    · rw [if_pos he]
      constructor
      · intro hb
        exfalso
        by_cases hl : parseOr0 pred.Line < parseOr0 pred.PredictedDifference
        · rw [if_pos hl] at hb
          exact rec_ne_below _ _ _ hb
        · rw [if_neg hl] at hb
          exact rec_ne_below _ _ _ hb
      · intro hlt
        linarith
    · rw [if_neg he]
      exact ⟨fun _ => lt_of_not_le he, fun _ => rfl⟩
  · intro he
    rw [← hmap, mapPred_betRec, if_pos he]

/-- The spec scenario's parsed differential. -/
lemma parseOr0_seven : parseOr0 "7" = 7 := by
  rw [parseOr0, jsParseFloat, show floatLex "7" = some ⟨false, 7, 0, 0, 0⟩ from by decide]
  norm_num [FloatLit.val]

/-- The spec scenario's parsed Vegas line. -/
lemma parseOr0_three : parseOr0 "3" = 3 := by
  rw [parseOr0, jsParseFloat, show floatLex "3" = some ⟨false, 3, 0, 0, 0⟩ from by decide]
  norm_num [FloatLit.val]

/-- The spec scenario's parsed edge. -/
lemma parseOr0_four : parseOr0 "4" = 4 := by
  rw [parseOr0, jsParseFloat, show floatLex "4" = some ⟨false, 4, 0, 0, 0⟩ from by decide]
  norm_num [FloatLit.val]

/-- The rendering of the Vegas line 3 in a recommendation string. -/
lemma jsNumToString_three : jsNumToString 3 = "3" := by
  rw [jsNumToString, decide_eq_false (by norm_num : ¬(3 : ℚ) < 0),
    show ((3 : ℚ)).num = 3 from by norm_num, show ((3 : ℚ)).den = 1 from by norm_num]
  decide

/-- Mapping the spec scenario record. -/
lemma mapPred_single :
    mapPred ⟨"A vs B", "A", "B", "7", "3", "4"⟩ =
      ⟨"A vs B", "A", "B", 7, 3, 4, "Take A -3", "Fade (35.7%)", "2-5"⟩ := by
  simp only [mapPred, parseOr0_seven, parseOr0_three, parseOr0_four, jsNumToString_three]
  norm_num [classifyEdge]
  rfl

/-- The whole builder on the spec scenario record. -/
lemma processPredictions_single :
    processPredictions [⟨"A vs B", "A", "B", "7", "3", "4"⟩] =
      [⟨"A vs B", "A", "B", 7, 3, 4, "Take A -3", "Fade (35.7%)", "2-5"⟩] := by
  rw [processPredictions, if_neg (by decide)]
  rw [show List.filter predFilter [⟨"A vs B", "A", "B", "7", "3", "4"⟩] =
    [⟨"A vs B", "A", "B", "7", "3", "4"⟩] from by decide]
  rw [List.map_cons, List.map_nil, mapPred_single]
  rfl

/-- C6: on the single spec scenario record the builder emits exactly one
opportunity, its edge band is 2-5, and its recommendation is Take A -3. -/
theorem singleRecord_end_to_end :
    (processPredictions [⟨"A vs B", "A", "B", "7", "3", "4"⟩]).length = 1 ∧
    (processPredictions [⟨"A vs B", "A", "B", "7", "3", "4"⟩]).map
      (fun o => (o.edgeBand, o.betRecommendation)) = [("2-5", "Take A -3")] := by
  rw [processPredictions_single]
  exact ⟨rfl, rfl⟩

/-- Witness for the recommendation theorem on the spec scenario record. -/
theorem processPredictions_recommendation_witness :
    ∃ pred ∈ [(⟨"A vs B", "A", "B", "7", "3", "4"⟩ : Prediction)],
      (⟨"A vs B", "A", "B", 7, 3, 4, "Take A -3", "Fade (35.7%)",
        "2-5"⟩ : BettingOpportunity) = mapPred pred ∧
      ((⟨"A vs B", "A", "B", 7, 3, 4, "Take A -3", "Fade (35.7%)",
        "2-5"⟩ : BettingOpportunity).betRecommendation = "Below threshold" ↔
        parseOr0 pred.Edge < 2) ∧
      (2 ≤ parseOr0 pred.Edge →
        (⟨"A vs B", "A", "B", 7, 3, 4, "Take A -3", "Fade (35.7%)",
          "2-5"⟩ : BettingOpportunity).betRecommendation =
          if parseOr0 pred.Line < parseOr0 pred.PredictedDifference then
            "Take " ++ pred.Favorite ++ " -" ++ jsNumToString (parseOr0 pred.Line)
          else
            "Take " ++ pred.Underdog ++ " +" ++ jsNumToString (parseOr0 pred.Line)) :=
  processPredictions_recommendation [⟨"A vs B", "A", "B", "7", "3", "4"⟩]
    ⟨"A vs B", "A", "B", 7, 3, 4, "Take A -3", "Fade (35.7%)", "2-5"⟩
    (by rw [processPredictions_single]; exact List.mem_singleton.2 rfl)

end RecommendationClaims

section ExclusionClaims

/-- A record whose Line is empty or one of the two sentinel markers never
passes the builder's filter. -/
lemma predFilter_sentinel (r : Prediction)
    (h : r.Line = "" ∨ r.Line = "N/A" ∨ r.Line = "No Line Available") :
    predFilter r = false := by
  rcases h with h | h | h <;> simp [predFilter, h]

/-- C4: removing a record whose Line field is empty, N/A, or
No Line Available leaves the builder's output unchanged wherever that record
sits in the input, whatever its other fields hold: no opportunity is ever
derived from it. -/
theorem processPredictions_excludes_sentinel_line (l1 l2 : List Prediction) (r : Prediction)
    (h : r.Line = "" ∨ r.Line = "N/A" ∨ r.Line = "No Line Available") :
    processPredictions (l1 ++ r :: l2) = processPredictions (l1 ++ l2) := by
  have hfilter : (l1 ++ r :: l2).filter predFilter = (l1 ++ l2).filter predFilter := by
    simp [List.filter_append, List.filter_cons, predFilter_sentinel r h]
  rw [processPredictions, processPredictions, if_neg (by simp)]
  by_cases h2 : (l1 ++ l2).isEmpty = true
  · rw [if_pos h2]
    have hnil : l1 ++ l2 = [] := by simpa [List.isEmpty_iff] using h2
    rw [hfilter, hnil]
    rfl
  · rw [if_neg h2, hfilter]

/-- Witness for the sentinel-line exclusion theorem at the N/A marker. -/
theorem processPredictions_excludes_sentinel_line_witness :
    processPredictions [⟨"M vs N", "M", "N", "7", "N/A", "4"⟩] = processPredictions [] :=
  processPredictions_excludes_sentinel_line [] [] ⟨"M vs N", "M", "N", "7", "N/A", "4"⟩
    (Or.inr (Or.inl rfl))

/-- C8: a numeric field of a mapped record whose string fails to parse is
carried as the value 0, and every record passing the filter yields exactly
one opportunity — a failed parse never drops a record past the filter nor
aborts the batch. -/
theorem processPredictions_parse_defaults (pred : Prediction) (preds : List Prediction) :
    (jsParseFloat pred.PredictedDifference = none → (mapPred pred).ourLine = 0) ∧
    (jsParseFloat pred.Line = none → (mapPred pred).vegasLine = 0) ∧
    (jsParseFloat pred.Edge = none → (mapPred pred).edge = 0) ∧
    (processPredictions preds).length = (preds.filter predFilter).length := by
  refine ⟨?_, ?_, ?_, ?_⟩
  · intro h
    show parseOr0 pred.PredictedDifference = 0
    rw [parseOr0, h]
    rfl
  · intro h
    show parseOr0 pred.Line = 0
    rw [parseOr0, h]
    rfl
  · intro h
    show parseOr0 pred.Edge = 0
    rw [parseOr0, h]
    rfl
  · rw [processPredictions]
    by_cases hp : preds.isEmpty = true
    · rw [if_pos hp]
      have hnil : preds = [] := by simpa [List.isEmpty_iff] using hp
      rw [hnil]
      rfl
    · rw [if_neg hp, (List.perm_insertionSort edgeGE _).length_eq, List.length_map]

/-- Witness for the parse-defaulting theorem on a record whose differential
cell is not numeric. -/
theorem processPredictions_parse_defaults_witness :
    (mapPred ⟨"M vs N", "M", "N", "abc", "3", "4"⟩).ourLine = 0 :=
  (processPredictions_parse_defaults ⟨"M vs N", "M", "N", "abc", "3", "4"⟩ []).1 (by decide)

end ExclusionClaims

section VariantClaims

/-- The recommendation field of a variant-mapped record, written out. -/
lemma variantMap_betRec (minEdge : ℚ) (pred : Prediction) :
    (variantMap minEdge pred).betRec =
      if minEdge ≤ parseOr0 pred.Edge then
        if parseOr0 pred.Line < parseOr0 pred.PredictedDifference then
          "Take " ++ pred.Favorite ++ " -" ++ jsNumToString (parseOr0 pred.Line)
        else "Take " ++ pred.Underdog ++ " +" ++ jsNumToString (parseOr0 pred.Line)
      else "" := rfl

/-- The edge field of a variant-mapped record is the parsed Edge cell. -/
lemma variantMap_edge (minEdge : ℚ) (pred : Prediction) :
    (variantMap minEdge pred).edge = parseOr0 pred.Edge := rfl

/-- C10: in the dashboard variants with a final minimum-edge filter, every
emitted record has edge at least the threshold and its recommendation is
neither the Below threshold marker nor the empty string; a sub-threshold
record's recommendation is set to the empty string during mapping and such
records never reach the output. -/
theorem bettingOpps_min_edge_filter (minEdge : ℚ) (preds : List Prediction)
    (opp : VariantOpp) (h : opp ∈ bettingOpps minEdge preds) :
    minEdge ≤ opp.edge ∧ opp.betRec ≠ "Below threshold" ∧ opp.betRec ≠ "" ∧
    ∀ pred : Prediction, parseOr0 pred.Edge < minEdge →
      (variantMap minEdge pred).betRec = "" := by
  rw [bettingOpps, List.mem_insertionSort, List.mem_filter] at h
  obtain ⟨hmem, hedge⟩ := h
  have hedge' : minEdge ≤ opp.edge := of_decide_eq_true hedge
  obtain ⟨pred, hpmem, hmap⟩ := List.mem_map.1 hmem
  have hpe : minEdge ≤ parseOr0 pred.Edge := by
    rw [← variantMap_edge minEdge pred, hmap]
    exact hedge'
  have hrec : opp.betRec =
      if parseOr0 pred.Line < parseOr0 pred.PredictedDifference then
        "Take " ++ pred.Favorite ++ " -" ++ jsNumToString (parseOr0 pred.Line)
      else "Take " ++ pred.Underdog ++ " +" ++ jsNumToString (parseOr0 pred.Line) := by
    rw [← hmap, variantMap_betRec, if_pos hpe]
  refine ⟨hedge', ?_, ?_, ?_⟩
  · rw [hrec]
    by_cases hl : parseOr0 pred.Line < parseOr0 pred.PredictedDifference
    · rw [if_pos hl]
      exact rec_ne_below _ _ _
    · rw [if_neg hl]
      exact rec_ne_below _ _ _
  · rw [hrec]
    by_cases hl : parseOr0 pred.Line < parseOr0 pred.PredictedDifference
    · rw [if_pos hl]
      exact rec_ne_empty _ _ _
    · rw [if_neg hl]
      exact rec_ne_empty _ _ _
  · intro pred0 hlt
    rw [variantMap_betRec, if_neg (not_le.2 hlt)]

/-- Variant mapping of the spec scenario record at the default threshold. -/
lemma variantMap_single :
    variantMap 2 ⟨"A vs B", "A", "B", "7", "3", "4"⟩ =
      ⟨"A vs B", "A", "B", "7", "3", "4", "Take A -3", "Favorite", 4, "Weak (37%)", 3,
        "2-5", "🟡"⟩ := by
  simp only [variantMap, parseOr0_seven, parseOr0_three, parseOr0_four, jsNumToString_three]
  norm_num
  rfl

/-- The variant pipeline on the spec scenario record. -/
lemma bettingOpps_single :
    bettingOpps 2 [⟨"A vs B", "A", "B", "7", "3", "4"⟩] =
      [⟨"A vs B", "A", "B", "7", "3", "4", "Take A -3", "Favorite", 4, "Weak (37%)", 3,
        "2-5", "🟡"⟩] := by
  rw [bettingOpps]
  rw [show List.filter (fun pred => pred.Line ≠ "" && pred.Line ≠ "N/A" &&
      pred.Line ≠ "No Line Available") [(⟨"A vs B", "A", "B", "7", "3", "4"⟩ : Prediction)] =
    [⟨"A vs B", "A", "B", "7", "3", "4"⟩] from by decide]
  rw [List.map_cons, List.map_nil, variantMap_single]
  rw [List.filter_cons]
  rw [decide_eq_true (show ((⟨"A vs B", "A", "B", "7", "3", "4", "Take A -3", "Favorite", 4,
    "Weak (37%)", 3, "2-5", "🟡"⟩ : VariantOpp)).edge ≥ (2 : ℚ) from by norm_num)]
  simp [List.insertionSort, List.orderedInsert]

/-- Witness for the variant minimum-edge theorem on the spec scenario
record. -/
theorem bettingOpps_min_edge_filter_witness :
    (2 : ℚ) ≤ (⟨"A vs B", "A", "B", "7", "3", "4", "Take A -3", "Favorite", 4, "Weak (37%)",
        3, "2-5", "🟡"⟩ : VariantOpp).edge ∧
    (⟨"A vs B", "A", "B", "7", "3", "4", "Take A -3", "Favorite", 4, "Weak (37%)", 3, "2-5",
        "🟡"⟩ : VariantOpp).betRec ≠ "Below threshold" ∧
    (⟨"A vs B", "A", "B", "7", "3", "4", "Take A -3", "Favorite", 4, "Weak (37%)", 3, "2-5",
        "🟡"⟩ : VariantOpp).betRec ≠ "" ∧
    ∀ pred : Prediction, parseOr0 pred.Edge < 2 → (variantMap 2 pred).betRec = "" :=
  bettingOpps_min_edge_filter 2 [⟨"A vs B", "A", "B", "7", "3", "4"⟩]
    ⟨"A vs B", "A", "B", "7", "3", "4", "Take A -3", "Favorite", 4, "Weak (37%)", 3, "2-5",
      "🟡"⟩
    (by rw [bettingOpps_single]; exact List.mem_singleton.2 rfl)

end VariantClaims

section NormalizerClaims

/-- Looking up the key just assigned finds the assigned value. -/
lemma lookup_setKey_self (o : List (String × String)) (k v : String) :
    (setKey o k v).lookup k = some v := by
  induction o with
  | nil => simp [setKey, List.lookup]
  | cons p rest ih =>
    obtain ⟨a, b⟩ := p
    by_cases h : a = k
    · simp [setKey, h, List.lookup]
    · have hka : (k == a) = false := beq_eq_false_iff_ne.2 fun he => h he.symm
      simp [setKey, h, List.lookup, hka, ih]

/-- Assigning one key leaves lookups of any other key unchanged. -/
lemma lookup_setKey_ne (o : List (String × String)) (k k' v : String) (h : k' ≠ k) :
    (setKey o k' v).lookup k = o.lookup k := by
  have hkk : (k == k') = false := beq_eq_false_iff_ne.2 (Ne.symm h)
  induction o with
  | nil => simp [setKey, List.lookup, hkk]
  | cons p rest ih =>
    obtain ⟨a, b⟩ := p
    by_cases hak : a = k'
    · subst hak
      simp [setKey, List.lookup, hkk]
    · cases hx : (k == a) <;> simp [setKey, hak, List.lookup, hx, ih]

/-- A fold of assignments over keys never equal to k leaves lookups of k
unchanged. -/
lemma lookup_foldl_setKey_notmem (row : List String) (l : List (Nat × String))
    (acc : List (String × String)) (k : String) (hk : ∀ p ∈ l, p.2 ≠ k) :
    (l.foldl (fun obj p => setKey obj p.2 (row.getD p.1 "")) acc).lookup k = acc.lookup k := by
  induction l generalizing acc with
  | nil => rfl
  | cons p t ih =>
    rw [List.foldl_cons, ih _ fun q hq => hk q (List.mem_cons_of_mem p hq)]
    exact lookup_setKey_ne acc k p.2 _ (hk p (List.mem_cons_self p t))

/-- Folding the assignments of an enumerated header list over a row maps the
header at position i (unique when the headers carry no duplicate) to the row
cell at position i, offset by the enumeration start. -/
lemma lookup_foldl_enumFrom (row : List String) (hs : List String) :
    ∀ (start : Nat) (acc : List (String × String)) (i : Nat) (hi : i < hs.length),
      hs.Nodup →
      ((List.enumFrom start hs).foldl
          (fun obj p => setKey obj p.2 (row.getD p.1 "")) acc).lookup (hs.get ⟨i, hi⟩) =
        some (row.getD (start + i) "") := by
  induction hs with
  | nil => intro start acc i hi _; exact absurd hi (by simp)
  | cons h t ih =>
    intro start acc i hi hnd
    obtain ⟨hht, hndt⟩ := List.nodup_cons.1 hnd
    rw [List.enumFrom_cons, List.foldl_cons]
    cases i with
    | zero =>
      show (((List.enumFrom (start + 1) t).foldl
        (fun obj p => setKey obj p.2 (row.getD p.1 ""))
        (setKey acc h (row.getD start "")))).lookup h = some (row.getD (start + 0) "")
      rw [lookup_foldl_setKey_notmem row _ _ h
        (fun p hp hph => hht (hph ▸ List.snd_mem_of_mem_enumFrom hp)),
        lookup_setKey_self, Nat.add_zero]
    | succ j =>
      rw [List.get_cons_succ, ih (start + 1) _ j (by simpa using hi) hndt,
        show start + 1 + j = start + (j + 1) by omega]

/-- With duplicate-free headers, the record built from a row maps the header
at position i to the row cell at position i, defaulting to the empty
string. -/
lemma buildObj_lookup (headers row : List String) (hnd : headers.Nodup) (i : Nat)
    (hi : i < headers.length) :
    (buildObj headers row).lookup (headers.get ⟨i, hi⟩) = some (row.getD i "") := by
  have h := lookup_foldl_enumFrom row headers 0 [] i hi hnd
  rw [Nat.zero_add] at h
  exact h

/-- C7: the Row Normalizer turns a table with a header row and at least one
data row into one record per data row, each record mapping (for
duplicate-free header text) a header to its row's cell at the same index and
defaulting to the empty string on short rows; a table with zero or one rows
normalizes to the empty sequence. -/
theorem normalizeTable_spec (headers : List String) (rows : List (List String)) :
    normalizeTable [] = [] ∧
    normalizeTable [headers] = [] ∧
    (rows ≠ [] →
      (normalizeTable (headers :: rows)).length = rows.length ∧
      normalizeTable (headers :: rows) = rows.map (buildObj headers) ∧
      (headers.Nodup → ∀ row ∈ rows, ∀ i, ∀ hi : i < headers.length,
        (buildObj headers row).lookup (headers.get ⟨i, hi⟩) = some (row.getD i ""))) := by
  have hmap : rows ≠ [] → normalizeTable (headers :: rows) = rows.map (buildObj headers) := by
    intro hr
    have hlen : (headers :: rows).length > 1 := by
      cases rows with
      | nil => exact absurd rfl hr
      | cons a t => simp
    rw [normalizeTable, if_pos hlen]
    rfl
  refine ⟨rfl, rfl, fun hr => ⟨?_, hmap hr, ?_⟩⟩
  · rw [hmap hr, List.length_map]
  · intro hnd row _ i hi
    exact buildObj_lookup headers row hnd i hi

/-- Witness for the Row Normalizer theorem on a two-column header with one
short data row. -/
theorem normalizeTable_spec_witness :
    (normalizeTable [["Matchup", "Line"], ["a"]]).length = 1 ∧
    (buildObj ["Matchup", "Line"] ["a"]).lookup "Line" = some "" := by
  have h := normalizeTable_spec ["Matchup", "Line"] [["a"]]
  refine ⟨(h.2.2 (by decide)).1, ?_⟩
  have h2 := (h.2.2 (by decide)).2.2 (by decide) ["a"] (List.mem_singleton.2 rfl) 1 (by decide)
  simpa using h2

end NormalizerClaims
